import Mathlib

/-!
A shallow embedding of the blocking shared byte pipe from `src/pipe/mod.rs`.

The shared state (`Pipe` in the source) is a FIFO byte buffer plus two
endpoint-liveness counters.  Bytes are modelled as natural numbers, buffer
lengths as `Nat`, and `std::usize::MAX` as the explicit constant
`USIZE_MAX = 2^64 - 1`.

Each operation is modelled as a pure function on `PipeState`.  A
`Condvar::wait_until(guard, pred)` call is viewed single-threadedly: when the
predicate already holds at the wait point the thread proceeds at once;
otherwise the call is recorded as `.blocked` (it cannot complete without
another thread changing the state).  An out-of-range `Vec::drain` or slice
index, and the `unimplemented!` macro, are recorded as `.panic`.

Condvar notifications issued inside the read/write operations do not change
the shared state and are not modelled there; the two `Drop` implementations
are modelled together with the number of notifications their bodies issue,
because endpoint destruction is exactly where wake-ups matter.
-/

/-- The representable-size ceiling: `std::usize::MAX` on a 64-bit target. -/
def USIZE_MAX : Nat := 2 ^ 64 - 1

/-- The shared state of `Pipe`: the FIFO byte buffer (`bytes`), and the two
liveness counters (`readers`, `writers`). -/
structure PipeState where
  buffer : List Nat
  readers : Nat
  writers : Nat
deriving DecidableEq, Repr

/-- Error kinds surfaced by the pipe operations in the source. -/
inductive ErrKind where
  | brokenPipe
  | unexpectedEof
  | invalidData
deriving DecidableEq, Repr

/-- Result of an operation returning a value of type `α`: success with the new
shared state, a typed error with the state at the point of failure, a blocked
wait that no other thread can be relied on to resolve, or a panic. -/
inductive Outcome (α : Type) where
  | ok (val : α) (s : PipeState)
  | err (e : ErrKind) (s : PipeState)
  | blocked
  | panic
deriving DecidableEq, Repr

/-- Result of the `BufRead`-style operations that also carry the caller's
output buffer (`out`), mirroring `&mut Vec<u8>` / `&mut String` arguments:
on error the unchanged `out` is returned alongside the state. -/
inductive BufOut where
  | ok (count : Nat) (out : List Nat) (s : PipeState)
  | err (e : ErrKind) (out : List Nat) (s : PipeState)
  | blocked
  | panic
deriving DecidableEq, Repr

/-- Models `Condvar::wait_until(guard, pred)` in the single-thread view: if
the predicate already holds, control continues with `k`; otherwise the
thread blocks. -/
def waitUntil {α : Type} (pred : Bool) (k : Outcome α) : Outcome α :=
  if pred then k else .blocked

/-- Translation of the free function `index_of` from the source: the index of
the first occurrence of `value` in `buf`, if any. -/
def index_of (value : Nat) : List Nat → Option Nat
  | [] => none
  | b :: rest => if value = b then some 0 else (index_of value rest).map (· + 1)

/-- Translation of `<Pipe as Read>::read`.  The source takes the lock, and if
`bytes.len() == 0` waits on `wait_until(bytes, |bytes| bytes.len() == 0)`;
that predicate is already true on this path, so the wait returns at once.
Then it drains `min(buf.len(), bytes.len())` bytes into the caller's buffer
(returned here as the `ok` value). -/
def Pipe.read (maxLen : Nat) (s : PipeState) : Outcome (List Nat) :=
  let len := min maxLen s.buffer.length
  let finish : Outcome (List Nat) :=
    .ok (s.buffer.take len) { s with buffer := s.buffer.drop len }
  if s.buffer.length = 0 then
    waitUntil (s.buffer.length == 0) finish
  else
    finish

/-- The predicate of the `wait_until` inside `<Pipe as Read>::read_exact`:
`|bytes| bytes.len() >= len`.  Note that it inspects only the byte count,
never the writer counter. -/
def readExactWaitPred (n : Nat) (s : PipeState) : Bool :=
  decide (n ≤ s.buffer.length)

/-- Translation of `<Pipe as Read>::read_exact` for a caller buffer of length
`n`: if `n` bytes are buffered they are drained and returned; otherwise, with
no live writer the call fails with `UnexpectedEof` (draining nothing), and
with a live writer it waits on `readExactWaitPred`, which is false here. -/
def Pipe.read_exact (n : Nat) (s : PipeState) : Outcome (List Nat) :=
  if readExactWaitPred n s then
    .ok (s.buffer.take n) { s with buffer := s.buffer.drop n }
  else if s.writers = 0 then
    .err .unexpectedEof s
  else
    .blocked

/-- Translation of `<Pipe as Write>::write`.  If `bytes.len() >= usize::MAX`
the source first waits until `bytes.len() < usize::MAX`.  Then, with no live
reader it fails with `BrokenPipe`; otherwise it computes
`len = min(usize::MAX - bytes.len(), buf.len())`, reserves `len`, but then
calls `extend_from_slice(buf)`, appending all of `buf`, and returns `len`. -/
def Pipe.write (buf : List Nat) (s : PipeState) : Outcome Nat :=
  let step : Outcome Nat :=
    if s.readers = 0 then
      .err .brokenPipe s
    else
      .ok (min (USIZE_MAX - s.buffer.length) buf.length)
        { s with buffer := s.buffer ++ buf }
  if USIZE_MAX ≤ s.buffer.length then
    waitUntil (decide (s.buffer.length < USIZE_MAX)) step
  else
    step

/-- Translation of `<Pipe as Write>::write_all`.  If
`bytes.len() > usize::MAX - buf.len()` the source first waits until
`bytes.len() <= usize::MAX - buf.len()`.  Then, with no live reader it fails
with `BrokenPipe`; otherwise `Vec::write_all` appends all of `buf`. -/
def Pipe.write_all (buf : List Nat) (s : PipeState) : Outcome Unit :=
  let step : Outcome Unit :=
    if s.readers = 0 then
      .err .brokenPipe s
    else
      .ok () { s with buffer := s.buffer ++ buf }
  if USIZE_MAX - buf.length < s.buffer.length then
    waitUntil (decide (s.buffer.length ≤ USIZE_MAX - buf.length)) step
  else
    step

/-- Shorthand for a UTF-8 continuation byte, as in `std::str::from_utf8`. -/
def isCont (b : Nat) : Bool :=
  0x80 ≤ b && b ≤ 0xBF

/-- Models the validity check of `std::str::from_utf8` /
`String::from_utf8`, which the source applies to the drained bytes: a byte
sequence is valid UTF-8 when it decomposes into well-formed scalar-value
encodings (ASCII, or 2-, 3-, 4-byte sequences with the usual lead-byte and
continuation ranges, excluding overlongs, surrogates, and values above
U+10FFFF). -/
def validUtf8 : List Nat → Bool
  | [] => true
  | b0 :: rest =>
    if b0 ≤ 0x7F then validUtf8 rest
    else if 0xC2 ≤ b0 && b0 ≤ 0xDF then
      match rest with
      | b1 :: rest2 => isCont b1 && validUtf8 rest2
      | [] => false
    else if b0 = 0xE0 then
      match rest with
      | b1 :: b2 :: rest3 =>
        (0xA0 ≤ b1 && b1 ≤ 0xBF) && isCont b2 && validUtf8 rest3
      | _ => false
    else if 0xE1 ≤ b0 && b0 ≤ 0xEC then
      match rest with
      | b1 :: b2 :: rest3 => isCont b1 && isCont b2 && validUtf8 rest3
      | _ => false
    else if b0 = 0xED then
      match rest with
      | b1 :: b2 :: rest3 =>
        (0x80 ≤ b1 && b1 ≤ 0x9F) && isCont b2 && validUtf8 rest3
      | _ => false
    else if 0xEE ≤ b0 && b0 ≤ 0xEF then
      match rest with
      | b1 :: b2 :: rest3 => isCont b1 && isCont b2 && validUtf8 rest3
      | _ => false
    else if b0 = 0xF0 then
      match rest with
      | b1 :: b2 :: b3 :: rest4 =>
        (0x90 ≤ b1 && b1 ≤ 0xBF) && isCont b2 && isCont b3 && validUtf8 rest4
      | _ => false
    else if 0xF1 ≤ b0 && b0 ≤ 0xF3 then
      match rest with
      | b1 :: b2 :: b3 :: rest4 =>
        isCont b1 && isCont b2 && isCont b3 && validUtf8 rest4
      | _ => false
    else if b0 = 0xF4 then
      match rest with
      | b1 :: b2 :: b3 :: rest4 =>
        (0x80 ≤ b1 && b1 ≤ 0x8F) && isCont b2 && isCont b3 && validUtf8 rest4
      | _ => false
    else false

/-- Translation of lines 205-225 of `<Pipe as BufRead>::read_until`, the
code after the scan/wait has fixed `next_check` (`nc`) and the condition on
line 205 has evaluated to true: `bytes[next_check]` is indexed (panicking
when out of range); if it equals the delimiter, `drain(..=next_check)` is
appended to `out` and `next_check + 1` returned; otherwise
`drain(..max_read)` is appended (panicking when `max_read` exceeds the
buffer length) and `max_read` returned. -/
def readUntilFinish (byte nc maxRead : Nat) (out : List Nat) (s : PipeState) :
    BufOut :=
  if nc < s.buffer.length then
    if s.buffer.getD nc 0 = byte then
      .ok (nc + 1) (out ++ s.buffer.take (nc + 1))
        { s with buffer := s.buffer.drop (nc + 1) }
    else if maxRead ≤ s.buffer.length then
      .ok maxRead (out ++ s.buffer.take maxRead)
        { s with buffer := s.buffer.drop maxRead }
    else .panic
  else .panic

/-- Translation of `<Pipe as BufRead>::read_until`.  With `out` already at
`usize::MAX` bytes it returns 0 at once.  Otherwise, with a live writer it
scans for the delimiter: found at `idx`, `next_check = min(idx, max_read-1)`
and control reaches line 205 (`readUntilFinish`); not found,
`next_check = min(bytes.len(), max_read-1)`, and unless that equals
`max_read - 1` the call waits (the wait predicate is false at entry).  With
no live writer the scan is skipped, `next_check` stays 0, and the line-205
condition reduces to `bytes.len() > 0 && bytes[0] == byte`: true reaches
`readUntilFinish`; false drains `min(max_read, bytes.len())` bytes. -/
def Pipe.read_until (byte : Nat) (out : List Nat) (s : PipeState) : BufOut :=
  if out.length = USIZE_MAX then .ok 0 out s
  else
    let maxRead := USIZE_MAX - out.length
    if 0 < s.writers then
      match index_of byte s.buffer with
      | some idx => readUntilFinish byte (min idx (maxRead - 1)) maxRead out s
      | none =>
        if min s.buffer.length (maxRead - 1) ≠ maxRead - 1 then .blocked
        else readUntilFinish byte (min s.buffer.length (maxRead - 1)) maxRead out s
    else
      if 0 < s.buffer.length ∧ s.buffer.getD 0 0 = byte then
        readUntilFinish byte 0 maxRead out s
      else
        let len := min maxRead s.buffer.length
        .ok len (out ++ s.buffer.take len) { s with buffer := s.buffer.drop len }

/-- Translation of `<Pipe as BufRead>::read_line`: it copies the caller's
string into a byte vector, calls `read_until` with the newline byte 10,
keeps only the newly appended bytes, validates them as UTF-8 (an invalid
sequence yields `InvalidData`, leaving the caller's string unchanged), and
pushes the decoded text onto the caller's string. -/
def Pipe.read_line (out : List Nat) (s : PipeState) : BufOut :=
  match Pipe.read_until 10 out s with
  | .ok len out2 s2 =>
    let fresh := out2.drop out.length
    if validUtf8 fresh then .ok len (out ++ fresh) s2
    else .err .invalidData out s2
  | .err e out2 s2 => .err e out2 s2
  | .blocked => .blocked
  | .panic => .panic

/-- Translation of `<Pipe as Read>::read_to_string`.  With a live writer and
`bytes.len() < usize::MAX - buf.len()` the source waits until the writers
vanish or the buffer reaches that bound (the wait predicate is false at
entry).  Otherwise it takes `len = min(usize::MAX - buf.len(), bytes.len())`
and validates `bytes[..len]` as UTF-8: on failure it returns `InvalidData`
before draining anything or touching the caller's string; on success it
pushes the decoded text and drains `len` bytes. -/
def Pipe.read_to_string (out : List Nat) (s : PipeState) : BufOut :=
  if 0 < s.writers ∧ s.buffer.length < USIZE_MAX - out.length then
    .blocked
  else
    let len := min (USIZE_MAX - out.length) s.buffer.length
    if validUtf8 (s.buffer.take len) then
      .ok len (out ++ s.buffer.take len) { s with buffer := s.buffer.drop len }
    else
      .err .invalidData out s

/-- A sequence of `Pipe.write` calls issued by a single writer, one per
payload; `none` when some call does not complete successfully. -/
def writeSeq : List (List Nat) → PipeState → Option PipeState
  | [], s => some s
  | b :: bs, s =>
    match Pipe.write b s with
    | .ok _ s2 => writeSeq bs s2
    | _ => none

/-- A sequence of `Pipe.read` calls issued by a single reader, one per
requested chunk size, concatenating the bytes received. -/
def readSeq : List Nat → PipeState → List Nat × PipeState
  | [], s => ([], s)
  | c :: cs, s =>
    match Pipe.read c s with
    | .ok data s2 =>
      let r := readSeq cs s2
      (data ++ r.1, r.2)
    | _ => ([], s)

/-- Translation of `impl Drop for PipeWrite`: the body is the single call
`self.inner.writers.fetch_sub(1, Ordering::SeqCst)`.  The second component
counts the condvar notifications issued by the body, of which there are
none. -/
def PipeWrite.drop (s : PipeState) : PipeState × Nat :=
  ({ s with writers := s.writers - 1 }, 0)

/-- Translation of `impl Drop for PipeRead`: the body is the single call
`self.inner.readers.fetch_sub(1, Ordering::SeqCst)`; it issues no condvar
notification. -/
def PipeRead.drop (s : PipeState) : PipeState × Nat :=
  ({ s with readers := s.readers - 1 }, 0)

/-- Translation of `<Pipe as BufRead>::fill_buf`, whose body is
`unimplemented!("<Pipe as BufRead>::fill_buf")`: every call panics. -/
def Pipe.fill_buf (_ : PipeState) : Outcome (List Nat) :=
  .panic

/-- Translation of `<Pipe as BufRead>::consume`, whose body is
`self.bytes.0.lock().unwrap().drain(..amt)`: `Vec::drain(..amt)` removes the
first `amt` bytes and panics when `amt` exceeds the buffer length. -/
def Pipe.consume (amt : Nat) (s : PipeState) : Outcome Unit :=
  if amt ≤ s.buffer.length then
    .ok () { s with buffer := s.buffer.drop amt }
  else
    .panic

theorem Pipe.read_eq (c : Nat) (s : PipeState) :
    Pipe.read c s = .ok (s.buffer.take (min c s.buffer.length))
      { s with buffer := s.buffer.drop (min c s.buffer.length) } := by
  unfold Pipe.read waitUntil
  by_cases h : s.buffer.length = 0 <;> simp [h]

theorem take_min_add {α : Type} (l : List α) (a b : Nat) :
    l.take (min a l.length) ++ (l.drop (min a l.length)).take b
      = l.take (a + b) := by
  rcases le_total a l.length with h | h
  · rw [min_eq_left h, ← List.take_add]
  · rw [min_eq_right h, List.drop_length, List.take_length, List.take_nil,
      List.append_nil, List.take_of_length_le (le_trans h (Nat.le_add_right a b))]

theorem readSeq_take (cs : List Nat) (s : PipeState) :
    (readSeq cs s).1 = s.buffer.take cs.sum := by
  induction cs generalizing s with
  | nil => simp [readSeq]
  | cons c cs ih =>
    simp only [readSeq, Pipe.read_eq, ih, List.sum_cons]
    exact take_min_add s.buffer c cs.sum

theorem Pipe.write_ok (b : List Nat) (s : PipeState) (hr : s.readers ≠ 0)
    (hcap : s.buffer.length < USIZE_MAX) :
    Pipe.write b s = .ok (min (USIZE_MAX - s.buffer.length) b.length)
      { s with buffer := s.buffer ++ b } := by
  unfold Pipe.write
  simp [Nat.not_le.mpr hcap, hr]

theorem writeSeq_ok (bs : List (List Nat)) (s : PipeState) (hr : s.readers ≠ 0)
    (hcap : s.buffer.length + bs.flatten.length < USIZE_MAX) :
    writeSeq bs s = some { s with buffer := s.buffer ++ bs.flatten } := by
  induction bs generalizing s with
  | nil => simp [writeSeq]
  | cons b bs ih =>
    have hfl : (b :: bs).flatten.length = b.length + bs.flatten.length := by
      simp [List.flatten_cons]
    have hlen : s.buffer.length < USIZE_MAX := by omega
    rw [writeSeq, Pipe.write_ok b s hr hlen]
    dsimp only
    rw [ih { s with buffer := s.buffer ++ b } hr
      (by simp only [List.length_append]; omega)]
    simp [List.flatten_cons, List.append_assoc]

/-- Claim C1: with a live reader, a single writer issuing write calls with
payloads `bs` appends exactly their concatenation to the FIFO buffer, and a
single reader whose read chunk sizes `cs` total at least that length
receives exactly the concatenation, in write-call order, regardless of the
chunking (writes append at the back, reads drain from the front). -/
theorem pipe_order_preservation (bs : List (List Nat)) (cs : List Nat)
    (s0 : PipeState) (hbuf : s0.buffer = []) (hr : s0.readers ≠ 0)
    (hcap : bs.flatten.length < USIZE_MAX)
    (hdrain : bs.flatten.length ≤ cs.sum) :
    ∃ s1, writeSeq bs s0 = some s1 ∧ s1.buffer = bs.flatten ∧
      (readSeq cs s1).1 = bs.flatten := by
  refine ⟨{ s0 with buffer := s0.buffer ++ bs.flatten }, ?_, ?_, ?_⟩
  · exact writeSeq_ok bs s0 hr (by rw [hbuf]; simpa using hcap)
  · rw [hbuf]; simp
  · rw [readSeq_take]
    simp only [hbuf, List.nil_append]
    exact List.take_of_length_le hdrain

/-- Witness for C1: payloads `[1,2]` then `[3]`, drained by reads of 2 and
then 1 bytes, yield exactly `[1,2,3]`. -/
theorem pipe_order_preservation_witness :
    ∃ s1, writeSeq [[1, 2], [3]] ⟨[], 1, 1⟩ = some s1 ∧ s1.buffer = [1, 2, 3] ∧
      (readSeq [2, 1] s1).1 = [1, 2, 3] := by
  have h := pipe_order_preservation [[1, 2], [3]] [2, 1] ⟨[], 1, 1⟩ rfl
    (by decide) (by decide) (by decide)
  simpa using h

/-- Claim C2 (code bug): reading from an empty buffer while a writer is
still live is required to block until at least one byte is appended; the
implementation instead succeeds immediately with 0 bytes, because the
predicate of its wait (`bytes.len() == 0`) already holds on the
empty-buffer path, contradicting the comment above the wait in the
source. -/
theorem read_empty_returns_zero_bug :
    Pipe.read 5 ⟨[], 1, 1⟩ = .ok [] ⟨[], 1, 1⟩ := by decide

/-- Claim C3 (code bug): with the buffer one byte below the ceiling and a
live reader, writing 3 bytes is required to append only
`min(ceiling - len, 3) = 1` byte; the implementation appends all 3
(`extend_from_slice(buf)` rather than the computed prefix) while returning
1, leaving the buffer 2 bytes past the representable-size ceiling. -/
theorem write_overflow_append_bug :
    Pipe.write [1, 2, 3] ⟨List.replicate (USIZE_MAX - 1) 0, 1, 1⟩ =
      .ok 1 ⟨List.replicate (USIZE_MAX - 1) 0 ++ [1, 2, 3], 1, 1⟩ ∧
    USIZE_MAX < (List.replicate (USIZE_MAX - 1) 0 ++ [1, 2, 3]).length ∧
    (List.replicate (USIZE_MAX - 1) 0 ++ [1, 2, 3]).length
      - (List.replicate (USIZE_MAX - 1) 0).length = 3 := by
  have hM : USIZE_MAX = 18446744073709551615 := by norm_num [USIZE_MAX]
  refine ⟨?_, ?_, ?_⟩
  · have hmin : (USIZE_MAX - (List.replicate (USIZE_MAX - 1) (0 : Nat)).length) ⊓
        ([1, 2, 3] : List Nat).length = 1 := by
      simp only [List.length_replicate, List.length_cons, List.length_nil]
      omega
    rw [Pipe.write_ok _ _ Nat.one_ne_zero
      (by simp only [List.length_replicate]; omega), hmin]
  · simp only [List.length_append, List.length_replicate, List.length_cons,
      List.length_nil]
    omega
  · simp only [List.length_append, List.length_replicate, List.length_cons,
      List.length_nil]
    omega

/-- Claim C4 (code bug): with `"line1\nline2"` buffered, the delimiter 10 at
index 5, and no live writer, `read_until(10)` is required to drain exactly
the 6-byte prefix through the newline; the implementation skips the
delimiter scan when no writer is live and drains all 11 bytes, so the first
`read_line` call returns the whole `"line1\nline2"`. -/
theorem read_until_past_delimiter_bug :
    index_of 10 [108, 105, 110, 101, 49, 10, 108, 105, 110, 101, 50] = some 5 ∧
    Pipe.read_until 10 []
        ⟨[108, 105, 110, 101, 49, 10, 108, 105, 110, 101, 50], 1, 0⟩ =
      .ok 11 [108, 105, 110, 101, 49, 10, 108, 105, 110, 101, 50] ⟨[], 1, 0⟩ ∧
    Pipe.read_line []
        ⟨[108, 105, 110, 101, 49, 10, 108, 105, 110, 101, 50], 1, 0⟩ =
      .ok 11 [108, 105, 110, 101, 49, 10, 108, 105, 110, 101, 50] ⟨[], 1, 0⟩ := by
  decide

/-- Claim C5 (code bug): a reader calling `read_exact(5)` with only `"Hi"`
buffered and a live writer blocks; destroying the last write endpoint only
decrements the counter and issues zero notifications, and the wait
predicate of `read_exact` still fails afterwards (it checks only the byte
count, never the writer counter), so the blocked reader is stranded;
symmetrically, destroying the last read endpoint issues zero
notifications. -/
theorem writer_drop_no_notify_bug :
    Pipe.read_exact 5 ⟨[72, 105], 1, 1⟩ = .blocked ∧
    PipeWrite.drop ⟨[72, 105], 1, 1⟩ = (⟨[72, 105], 1, 0⟩, 0) ∧
    readExactWaitPred 5 ⟨[72, 105], 1, 0⟩ = false ∧
    PipeRead.drop ⟨[72, 105], 1, 1⟩ = (⟨[72, 105], 0, 1⟩, 0) := by decide

/-- Claim C6: `read_exact(n)` on a pipe with zero live write endpoints and
fewer than `n` buffered bytes returns `UnexpectedEof` synchronously, and the
buffered bytes are not removed by the failing call. -/
theorem read_exact_no_writer_eof (n : Nat) (s : PipeState)
    (hw : s.writers = 0) (hlt : s.buffer.length < n) :
    Pipe.read_exact n s = .err .unexpectedEof s := by
  unfold Pipe.read_exact readExactWaitPred
  simp [hw, Nat.not_le.mpr hlt]

/-- Witness for C6: `"Hi"` buffered, no writers, `read_exact(5)` fails with
`UnexpectedEof` leaving the buffer untouched. -/
theorem read_exact_no_writer_eof_witness :
    Pipe.read_exact 5 ⟨[72, 105], 1, 0⟩ = .err .unexpectedEof ⟨[72, 105], 1, 0⟩ :=
  read_exact_no_writer_eof 5 ⟨[72, 105], 1, 0⟩ rfl (by decide)

/-- Counterexample to C7 as stated: with the buffer at the
representable-size ceiling and zero live read endpoints, `write` and
`write_all` block in their capacity wait (whose predicate nobody can make
true) instead of returning `BrokenPipe` immediately — the no-reader check
only runs after the capacity wait. -/
theorem write_at_ceiling_blocks :
    Pipe.write [7] ⟨List.replicate USIZE_MAX 0, 0, 1⟩ = .blocked ∧
    Pipe.write_all [7] ⟨List.replicate USIZE_MAX 0, 0, 1⟩ = .blocked := by
  have hM : USIZE_MAX = 18446744073709551615 := by norm_num [USIZE_MAX]
  constructor
  · unfold Pipe.write waitUntil
    simp [List.length_replicate]
  · unfold Pipe.write_all waitUntil
    simp only [List.length_replicate, List.length_cons, List.length_nil]
    rw [if_pos (by omega)]
    simp [Nat.not_le.mpr (by omega : USIZE_MAX - 1 < USIZE_MAX)]

/-- Claim C7 as amended: whenever the shared buffer is below the
representable-size ceiling (strictly below it for `write`; with room for
`buf` for `write_all`), a write call with zero live read endpoints returns
`BrokenPipe` immediately, without blocking, and leaves the shared buffer
unchanged. -/
theorem write_no_reader_broken_pipe (buf : List Nat) (s : PipeState)
    (hr : s.readers = 0) :
    (s.buffer.length < USIZE_MAX → Pipe.write buf s = .err .brokenPipe s) ∧
    (s.buffer.length + buf.length ≤ USIZE_MAX →
      Pipe.write_all buf s = .err .brokenPipe s) := by
  constructor
  · intro hcap
    unfold Pipe.write
    simp [Nat.not_le.mpr hcap, hr]
  · intro hcap
    unfold Pipe.write_all
    have hng : ¬ (USIZE_MAX - buf.length < s.buffer.length) := by omega
    simp [hng, hr]

/-- Witness for amended C7: on a fresh pipe with zero readers, both `write`
and `write_all` of one byte fail with `BrokenPipe` leaving the state
unchanged. -/
theorem write_no_reader_broken_pipe_witness :
    Pipe.write [1] ⟨[], 0, 1⟩ = .err .brokenPipe ⟨[], 0, 1⟩ ∧
    Pipe.write_all [1] ⟨[], 0, 1⟩ = .err .brokenPipe ⟨[], 0, 1⟩ :=
  ⟨(write_no_reader_broken_pipe [1] ⟨[], 0, 1⟩ rfl).1 (by decide),
   (write_no_reader_broken_pipe [1] ⟨[], 0, 1⟩ rfl).2 (by decide)⟩

/-- Claim C8: when the buffer holds at least `n` bytes, `read_exact(n)`
succeeds, the caller receives exactly the first `n` buffered bytes in FIFO
order with no partial result, and exactly those `n` bytes are removed from
the shared buffer. -/
theorem read_exact_success_postcondition (n : Nat) (s : PipeState)
    (h : n ≤ s.buffer.length) :
    Pipe.read_exact n s =
      .ok (s.buffer.take n) { s with buffer := s.buffer.drop n } := by
  unfold Pipe.read_exact readExactWaitPred
  simp [h]

/-- Witness for C8: after a writer appends the 5 bytes of `"Hello"`,
`read_exact(5)` returns exactly those bytes and empties the buffer. -/
theorem read_exact_success_postcondition_witness :
    Pipe.read_exact 5 ⟨[72, 101, 108, 108, 111], 1, 1⟩ =
      .ok [72, 101, 108, 108, 111] ⟨[], 1, 1⟩ :=
  read_exact_success_postcondition 5 ⟨[72, 101, 108, 108, 111], 1, 1⟩ (by decide)

/-- Counterexample to C9 as stated: `fill_buf` does not yield a typed
not-supported error but panics (`unimplemented!`), and `consume(1)` on an
empty buffer aborts (`Vec::drain` out of range) rather than returning. -/
theorem fill_buf_consume_crash_counterexample :
    Pipe.fill_buf ⟨[], 1, 1⟩ = .panic ∧ Pipe.consume 1 ⟨[], 1, 1⟩ = .panic := by
  decide

/-- Claim C9 as amended: `fill_buf` unconditionally panics rather than
returning a typed not-supported error, and `consume(amt)` panics exactly
when `amt` exceeds the buffered length, otherwise draining the first `amt`
bytes without any error result. -/
theorem fill_buf_consume_behavior (s : PipeState) (amt : Nat) :
    Pipe.fill_buf s = .panic ∧
    Pipe.consume amt s =
      (if amt ≤ s.buffer.length then
        .ok () { s with buffer := s.buffer.drop amt }
      else .panic) :=
  ⟨rfl, rfl⟩

/-- Claim C10: when the drainable buffered prefix (the first
`min(usize::MAX - out.len(), buffer.len())` bytes, here with no live writer
so the call completes at once) is not valid UTF-8, `read_to_string` returns
`InvalidData` while draining nothing from the shared buffer and appending
nothing to the caller's string. -/
theorem read_to_string_invalid_atomic (out : List Nat) (s : PipeState)
    (hw : s.writers = 0)
    (hbad : validUtf8
      (s.buffer.take (min (USIZE_MAX - out.length) s.buffer.length)) = false) :
    Pipe.read_to_string out s = .err .invalidData out s := by
  unfold Pipe.read_to_string
  simp [hw, hbad]

/-- Witness for C10: a buffered lone byte 255 is not valid UTF-8, so
`read_to_string` fails with `InvalidData`, leaving the byte buffered and
the output string empty. -/
theorem read_to_string_invalid_atomic_witness :
    Pipe.read_to_string [] ⟨[255], 1, 0⟩ = .err .invalidData [] ⟨[255], 1, 0⟩ :=
  read_to_string_invalid_atomic [] ⟨[255], 1, 0⟩ rfl (by decide)
